import Mathlib

/-!
Verification development for the AssetRipper extraction core (server.py):
the URL resolver, the asset-type classifier, the HTML asset scanner and the
signature-based library detector.

External collaborators are modelled as explicit inputs:
* the BeautifulSoup parse is external, so a document is given as its element
  list in document order (the order `find_all` traverses) together with the
  raw HTML text used by the document-wide `url(...)` sweep;
* `urllib.parse.urljoin` is external, so the join is an abstract function
  `String → String → Option String`, `none` modelling a raised exception
  (caught by `resolve_url`);
* the `re` engine used by the detector is external, so a catalog signature is
  given by its search behaviour on a corpus.

Python `str` operations used by the code are modelled by executable
character-list functions below, since the behaviour of `strip`, `lower`,
`split`, `startswith`, `endswith` and `in` on `str` is what the code relies
on.
-/

namespace AssetRipper

/-- The whitespace characters Python `str.strip()` and `str.split()` use. -/
def isPySpace (c : Char) : Bool :=
  c = ' ' || c = '\t' || c = '\n' || c = '\r' || c = '\x0b' || c = '\x0c'

/-- Model of Python `str.lower()` (ASCII case mapping). -/
def lowerStr (s : String) : String := ⟨s.data.map Char.toLower⟩

/-- Model of Python `str.strip()`. -/
def stripStr (s : String) : String :=
  ⟨((s.data.dropWhile isPySpace).reverse.dropWhile isPySpace).reverse⟩

/-- Model of Python `str.startswith(pre)`. -/
def startsWithStr (s pre : String) : Bool := pre.data.isPrefixOf s.data

/-- Model of Python `str.endswith(suf)`. -/
def endsWithStr (s suf : String) : Bool := suf.data.isSuffixOf s.data

/-- Substring occurrence on character lists (hay, then needle). -/
def containsSub : List Char → List Char → Bool
  | [], pat => pat.isEmpty
  | c :: rest, pat => pat.isPrefixOf (c :: rest) || containsSub rest pat

/-- Model of the Python membership test `pat in s` on strings. -/
def inStr (pat s : String) : Bool := containsSub s.data pat.data

/-- Model of Python `str.split(sep)` for a one-character separator. -/
def splitChar (sep : Char) : List Char → List (List Char)
  | [] => [[]]
  | c :: rest =>
    let r := splitChar sep rest
    if c = sep then [] :: r
    else
      match r with
      | h :: t => (c :: h) :: t
      | [] => [[c]]

def splitStr (sep : Char) (s : String) : List String :=
  (splitChar sep s.data).map String.mk

/-- Split at every character satisfying `p` (pieces may be empty). -/
def splitPred (p : Char → Bool) : List Char → List (List Char)
  | [] => [[]]
  | c :: rest =>
    let r := splitPred p rest
    if p c then [] :: r
    else
      match r with
      | h :: t => (c :: h) :: t
      | [] => [[c]]

/-- Model of Python `str.split()` with no argument: split on whitespace runs,
dropping empty pieces. -/
def splitWs (s : String) : List String :=
  ((splitPred isPySpace s.data).filter (fun l => !l.isEmpty)).map String.mk

/-- Model of the Python slice `s[:n]`, by characters. -/
def pySlice (n : Nat) (s : String) : String := ⟨s.data.take n⟩

/-- Abstract model of `urllib.parse.urljoin`: base, then reference; `none`
models a raised exception, which `resolve_url` turns into `None`. -/
abbrev Joiner := String → String → Option String

/-- Translation of `resolve_url` (server.py lines 29-38).  The reference is
`Option String` because callers pass `el.get(...)`, which may be absent, and
Python `if not href` treats `None` and the empty string alike. -/
def resolve_url (j : Joiner) (href : Option String) (base : String) : Option String :=
  match href with
  | none => none
  | some h =>
    if h = "" then none
    else
      let h := stripStr h
      if startsWithStr h "data:" || startsWithStr h "javascript:" ||
          startsWithStr h "#" || startsWithStr h "mailto:" then none
      else j base h

def imageExts : List String :=
  [".png", ".jpg", ".jpeg", ".gif", ".svg", ".webp", ".ico", ".avif", ".bmp"]

def fontExts : List String := [".woff", ".woff2", ".ttf", ".otf", ".eot"]

/-- Translation of `get_asset_type` (server.py lines 73-93). -/
def get_asset_type (url : String) (content_type : String) : String :=
  let url_lower := (splitStr '?' (lowerStr url)).headD ""
  let ct := lowerStr content_type
  if inStr "javascript" ct || endsWithStr url_lower ".js" ||
      endsWithStr url_lower ".mjs" || endsWithStr url_lower ".cjs" then "js"
  else if inStr "css" ct || endsWithStr url_lower ".css" then "css"
  else if imageExts.any (fun e => endsWithStr url_lower e) then "img"
  else if inStr "image" ct then "img"
  else if fontExts.any (fun e => endsWithStr url_lower e) then "font"
  else if inStr "font" ct then "font"
  else if endsWithStr url_lower ".html" || endsWithStr url_lower ".htm" ||
      inStr "html" ct then "html"
  else if endsWithStr url_lower ".json" then "json"
  else "other"

/-- The classifier exactly as spec section 4.2 words it: seven rules applied
in order, first match wins, where rules 3 and 4 are each one disjunction of
an extension-set test and a content-type substring test.  Stated separately
from `get_asset_type` so the refinement between the two can be proved. -/
def classify_spec (url : String) (content_type : String) : String :=
  let url_lower := (splitStr '?' (lowerStr url)).headD ""
  let ct := lowerStr content_type
  if inStr "javascript" ct || endsWithStr url_lower ".js" ||
      endsWithStr url_lower ".mjs" || endsWithStr url_lower ".cjs" then "js"
  else if inStr "css" ct || endsWithStr url_lower ".css" then "css"
  else if imageExts.any (fun e => endsWithStr url_lower e) || inStr "image" ct then "img"
  else if fontExts.any (fun e => endsWithStr url_lower e) || inStr "font" ct then "font"
  else if endsWithStr url_lower ".html" || endsWithStr url_lower ".htm" ||
      inStr "html" ct then "html"
  else if endsWithStr url_lower ".json" then "json"
  else "other"

theorem ite_merge {α : Type} (a b : Bool) (x y : α) :
    (if a then x else if b then x else y) = (if a || b then x else y) := by
  cases a <;> simp

/-- One discovered asset record: the dict built by `add` or by the two inline
appends.  Python's `a.update(extra)` overwrites existing keys; among the
actual call sites the only key of the base dict ever present in `extra` is
`"type"` (the `script[src]` rule passes the declared type), so the update is
modelled as: an extra entry keyed `"type"` replaces the category and the
remaining extra entries form the `attrs` bag.  Boolean extras are stored as
`"True"`/`"False"`. -/
structure Asset where
  url : String
  type_ : String
  tag : String
  inline : Bool
  content : Option String := none
  size : Option Nat := none
  attrs : List (String × String) := []
deriving DecidableEq

/-- The scanner's mutable state: the output list and the `seen` set (only
membership is ever queried, so a list models the Python set). -/
structure ScanState where
  assets : List Asset
  seen : List String
deriving DecidableEq

/-- Translation of the closure `add` (server.py lines 101-108):
`if not url or url in seen: return`, then record the url and append. -/
def add (st : ScanState) (url : Option String) (type_ tag : String)
    (extra : List (String × String)) : ScanState :=
  match url with
  | none => st
  | some u =>
    if u = "" ∨ u ∈ st.seen then st
    else
      { assets := st.assets ++
          [{ url := u
           , type_ := match List.lookup "type" extra with
                      | some t => t
                      | none => type_
           , tag := tag
           , inline := false
           , attrs := extra.filter (fun kv => kv.1 ≠ "type") }]
      , seen := st.seen ++ [u] }

/-- One step of the scan: a candidate handed to `add`, or a direct append of
an inline record (which bypasses `seen`, as in the source). -/
inductive ScanOp where
  | addO (url : Option String) (type_ tag : String) (extra : List (String × String))
  | inlineO (url type_ tag content : String) (size : Nat)
deriving DecidableEq

def ScanOp.apply (st : ScanState) : ScanOp → ScanState
  | .addO u t g ex => add st u t g ex
  | .inlineO u t g c n =>
    { st with assets := st.assets ++
        [{ url := u, type_ := t, tag := g, inline := true
         , content := some c, size := some n }] }

def runOps (ops : List ScanOp) : ScanState := ops.foldl ScanOp.apply ⟨[], []⟩

/-- One element of the parsed document.  BeautifulSoup parsing is external;
a document is its element list in document order. -/
structure Element where
  name : String
  attrs : List (String × String)
  text : String := ""
deriving DecidableEq

def Element.get (el : Element) (a : String) : Option String :=
  (el.attrs.find? (fun kv => kv.1 == a)).map (fun kv => kv.2)

def Element.getD (el : Element) (a d : String) : String := (el.get a).getD d

def Element.hasAttr (el : Element) (a : String) : Bool := (el.get a).isSome

/-- BeautifulSoup exposes `rel` as a multi-valued attribute: the
whitespace-split token list, `[]` when the attribute is absent. -/
def Element.relTokens (el : Element) : List String :=
  match el.get "rel" with
  | none => []
  | some s => splitWs s

/-- The apostrophe character (written by code point to keep source plain). -/
def quoteB : Char := Char.ofNat 39

/-- Characters that terminate the captured group of the scanner's
`url\(["\x27]?([^"\x27)\s]+)["\x27]?\)` pattern. -/
def isUrlStop (c : Char) : Bool := c = '"' || c = quoteB || c = ')' || isPySpace c

/-- Skip a single optional quote character, as the pattern's `["\x27]?`. -/
def skipQuote : List Char → List Char
  | [] => []
  | c :: rest => if c = '"' || c = quoteB then rest else c :: rest

/-- One attempted match of the scanner's url pattern starting right after the
literal `url(`: optional quote, one or more characters outside quote, closing
parenthesis and whitespace (the captured group), optional quote, then `)`.
Returns the group and the characters after the match; `none` when the regex
engine would fail at this start position. -/
def urlMatchAt (cs : List Char) : Option (String × List Char) :=
  if ((skipQuote cs).takeWhile (fun c => !isUrlStop c)).isEmpty then none
  else
    match skipQuote ((skipQuote cs).dropWhile (fun c => !isUrlStop c)) with
    | ')' :: rest => some (⟨(skipQuote cs).takeWhile (fun c => !isUrlStop c)⟩, rest)
    | _ => none

/-- `re.finditer` of the url pattern over the text: scan left to right, at
each literal `url(` attempt a match; on success emit the captured group and
resume after the match (matches do not overlap), on failure resume one
character later.  The fuel argument only serves structural termination: the
text shrinks by at least one character at every recursive call, so any fuel
exceeding the text length never runs out. -/
def urlScanF : Nat → List Char → List String
  | 0, _ => []
  | _, [] => []
  | fuel + 1, 'u' :: 'r' :: 'l' :: '(' :: tail =>
    (match urlMatchAt tail with
     | some (g, aft) => g :: urlScanF fuel aft
     | none => urlScanF fuel ('r' :: 'l' :: '(' :: tail))
  | fuel + 1, _ :: rest => urlScanF fuel rest

def urlMatches (s : String) : List String := urlScanF (s.data.length + 1) s.data

/-- `ext = u.lower().split("?")[0].split(".")[-1]` (server.py lines 134, 190). -/
def extOf (u : String) : String :=
  ⟨(splitChar '.' ((splitChar '?' (lowerStr u).data).headD [])).getLastD []⟩

/-- Extension tuple of lines 135 and 191 (no leading dot). -/
def bareFontExts : List String := ["woff", "woff2", "ttf", "otf", "eot"]

def fontOrImg (u : String) : String :=
  if bareFontExts.contains (extOf u) then "font" else "img"

def boolStr (b : Bool) : String := if b then "True" else "False"

/-- `<link>` with rel containing "stylesheet" (lines 111-113). -/
def stylesheetOps (j : Joiner) (doc : List Element) (base : String) : List ScanOp :=
  (doc.filter (fun el => el.name == "link" && el.relTokens.contains "stylesheet")).map
    (fun el => .addO (resolve_url j (el.get "href") base) "css" "link[rel=stylesheet]" [])

/-- `<link href>` whose href contains ".css" (lines 115-119). -/
def cssHrefOps (j : Joiner) (doc : List Element) (base : String) : List ScanOp :=
  doc.filterMap (fun el =>
    if el.name == "link" then
      match el.get "href" with
      | some href =>
        if inStr ".css" href then
          some (.addO (resolve_url j (some href) base) "css" "link[href*.css]" [])
        else none
      | none => none
    else none)

/-- The `url(...)` extraction inside one inline `<style>` block (lines
130-136): resolved references that are truthy are added with a category from
the bare extension. -/
def styleUrlOps (j : Joiner) (base content : String) : List ScanOp :=
  (urlMatches content).flatMap (fun g =>
    match resolve_url j (some g) base with
    | some u => if u == "" then [] else [.addO (some u) (fontOrImg u) "css url()" []]
    | none => [])

/-- Inline `<style>` blocks (lines 122-136): each non-blank block appends one
inline record and is then scanned for `url(...)`. -/
def styleBlockOps (j : Joiner) (doc : List Element) (base : String) : List ScanOp :=
  ((doc.filter (fun el => el.name == "style")).enum).flatMap (fun p =>
    if stripStr p.2.text == "" then []
    else
      .inlineO ("inline-style-" ++ toString (p.1 + 1)) "css" "<style> inline"
          p.2.text p.2.text.length
        :: styleUrlOps j base p.2.text)

/-- `<script src>` (lines 139-145). -/
def scriptSrcOps (j : Joiner) (doc : List Element) (base : String) : List ScanOp :=
  (doc.filter (fun el => el.name == "script" && el.hasAttr "src")).map (fun el =>
    .addO (resolve_url j (el.get "src") base) "js" "script[src]"
      [("async", boolStr (el.hasAttr "async")), ("defer", boolStr (el.hasAttr "defer")),
       ("type", el.getD "type" "")])

/-- Inline `<script>` without src (lines 147-154): kept when the text is not
blank and its raw length exceeds 20; content capped at 10000 characters with
the full length recorded. -/
def inlineScriptOps (doc : List Element) : List ScanOp :=
  ((doc.filter (fun el => el.name == "script" && !el.hasAttr "src")).enum).filterMap
    (fun p =>
      if stripStr p.2.text ≠ "" ∧ 20 < p.2.text.length then
        some (.inlineO ("inline-script-" ++ toString (p.1 + 1)) "js" "<script> inline"
          (pySlice 10000 p.2.text) p.2.text.length)
      else none)

/-- `<img>` src and srcset (lines 157-164). -/
def imgOps (j : Joiner) (doc : List Element) (base : String) : List ScanOp :=
  (doc.filter (fun el => el.name == "img")).flatMap (fun el =>
    .addO (resolve_url j (el.get "src") base) "img" "img[src]" [("alt", el.getD "alt" "")]
    :: (splitStr ',' (el.getD "srcset" "")).map (fun part =>
        .addO (match (splitWs (stripStr part)).head? with
               | some p0 => resolve_url j (some p0) base
               | none => none) "img" "img[srcset]" []))

def lazyAttrs : List String := ["data-src", "data-lazy", "data-original", "data-url"]

/-- `background` and lazy-load data attributes over all elements (lines
166-177); a lazy value must be truthy and contain a literal dot. -/
def lazyOps (j : Joiner) (doc : List Element) (base : String) : List ScanOp :=
  doc.flatMap (fun el =>
    (match el.get "background" with
     | some bg =>
       if bg ≠ "" then [.addO (resolve_url j (some bg) base) "img" "background attr" []]
       else []
     | none => [])
    ++ lazyAttrs.flatMap (fun attr =>
        match el.get attr with
        | some v =>
          if v ≠ "" ∧ v.data.contains '.' then
            [.addO (resolve_url j (some v) base) "img" (attr ++ " (lazy)") []]
          else []
        | none => []))

/-- `url(...)` inside style attributes (lines 180-183). -/
def styleAttrOps (j : Joiner) (doc : List Element) (base : String) : List ScanOp :=
  doc.flatMap (fun el =>
    match el.get "style" with
    | some sv =>
      (urlMatches sv).map (fun g =>
        .addO (resolve_url j (some g) base) "img" "style attr url()" [])
    | none => [])

/-- `url(...)` over the entire raw HTML text (lines 186-192). -/
def htmlSweepOps (j : Joiner) (html base : String) : List ScanOp :=
  (urlMatches html).flatMap (fun g =>
    match resolve_url j (some g) base with
    | some u => if u == "" then [] else [.addO (some u) (fontOrImg u) "html url()" []]
    | none => [])

/-- `<link href>` containing "font" or a font extension substring (lines
195-199). -/
def fontLinkOps (j : Joiner) (doc : List Element) (base : String) : List ScanOp :=
  doc.filterMap (fun el =>
    if el.name == "link" then
      match el.get "href" with
      | some href =>
        if inStr "font" (lowerStr href) ||
            [".woff", ".ttf", ".otf", ".eot"].any (fun e => inStr e (lowerStr href)) then
          some (.addO (resolve_url j (some href) base) "font" "link[font]" [])
        else none
      | none => none
    else none)

/-- `<link>` whose href matches `fonts\.(googleapis|gstatic)\.com` (lines
202-204): with the escapes, a plain substring test. -/
def googleFontsOps (j : Joiner) (doc : List Element) (base : String) : List ScanOp :=
  (doc.filter (fun el => el.name == "link" &&
      (match el.get "href" with
       | some href => inStr "fonts.googleapis.com" href || inStr "fonts.gstatic.com" href
       | none => false))).map (fun el =>
    .addO (resolve_url j (el.get "href") base) "font" "Google Fonts" [])

/-- `<link>` with rel containing "icon" or "shortcut" (lines 208-210). -/
def faviconOps (j : Joiner) (doc : List Element) (base : String) : List ScanOp :=
  (doc.filter (fun el => el.name == "link" &&
      (el.relTokens.contains "icon" || el.relTokens.contains "shortcut"))).map (fun el =>
    .addO (resolve_url j (el.get "href") base) "img" "favicon" [])

/-- The first `<meta property="og:image">` (lines 213-216). -/
def ogImageOps (j : Joiner) (doc : List Element) (base : String) : List ScanOp :=
  match doc.find? (fun el => el.name == "meta" && el.get "property" == some "og:image") with
  | some el => [.addO (resolve_url j (el.get "content") base) "img" "og:image" []]
  | none => []

/-- `type_map` of line 222 together with `.get(as_type, "other")`. -/
def preloadTypeMap : String → String
  | "script" => "js"
  | "style" => "css"
  | "image" => "img"
  | "font" => "font"
  | _ => "other"

/-- `<link rel="preload">` mapped through its `as` attribute (lines 219-223). -/
def preloadOps (j : Joiner) (doc : List Element) (base : String) : List ScanOp :=
  (doc.filter (fun el => el.name == "link" && el.relTokens.contains "preload")).map
    (fun el =>
      .addO (resolve_url j (el.get "href") base)
        (preloadTypeMap (el.getD "as" "other")) "link[preload]" [])

/-- The full candidate stream in source rule order.  No extraction rule reads
the accumulator, so generating all candidates first and folding the shared
add / inline-append step over them is the scan of lines 96-225. -/
def scanOps (j : Joiner) (doc : List Element) (html base : String) : List ScanOp :=
  stylesheetOps j doc base ++ cssHrefOps j doc base ++ styleBlockOps j doc base ++
  scriptSrcOps j doc base ++ inlineScriptOps doc ++ imgOps j doc base ++
  lazyOps j doc base ++ styleAttrOps j doc base ++ htmlSweepOps j html base ++
  fontLinkOps j doc base ++ googleFontsOps j doc base ++ faviconOps j doc base ++
  ogImageOps j doc base ++ preloadOps j doc base

/-- Translation of `parse_assets_from_html` (server.py lines 96-225). -/
def parse_assets_from_html (j : Joiner) (doc : List Element) (html base : String) :
    List Asset :=
  (runOps (scanOps j doc html base)).assets

/-- Model of Python `str.replace(pat, sub)` for a non-empty pattern: leftmost
non-overlapping occurrences, scanning once left to right.  The fuel argument
only serves structural termination: the text shrinks by at least one
character at every recursive call, so any fuel exceeding the text length
never runs out. -/
def replaceSubF (pat sub : List Char) : Nat → List Char → List Char
  | _, [] => []
  | 0, cs => cs
  | fuel + 1, c :: rest =>
    if !pat.isEmpty && pat.isPrefixOf (c :: rest) then
      sub ++ replaceSubF pat sub fuel ((c :: rest).drop pat.length)
    else c :: replaceSubF pat sub fuel rest

def pyReplace (s pat sub : String) : String :=
  ⟨replaceSubF pat.data sub.data (s.data.length + 1) s.data⟩

/-- The outcome of `re.search(p, corpus, re.IGNORECASE)` for one catalog
signature: `none` is no match; `some none` is a match m with `m.lastindex`
falsy (no participating capturing group); `some (some v)` is a match whose
`group(1)` is `v`.  The regex engine is external, so a signature is modelled
by this behaviour. -/
abbrev SigRun := String → Option (Option String)

/-- One catalog entry `(name, icon, patterns)` of the static LIBS table
(lines 232-289). -/
structure LibEntry where
  name : String
  icon : String
  patterns : List SigRun

/-- One detected technology as appended on lines 301-306. -/
structure LibMatch where
  name : String
  icon : String
  version : String
  confidence : String
deriving DecidableEq

/-- `matches = sum(1 for p in patterns if re.search(p, search, re.IGNORECASE))`
(line 292). -/
def countMatches (ps : List SigRun) (corpus : String) : Nat :=
  (ps.filter (fun p => (p corpus).isSome)).length

/-- The version-extraction loop of lines 296-299: the first pattern in
declared order whose match carries a participating capturing group. -/
def extractVersion (ps : List SigRun) (corpus : String) : Option String :=
  match ps with
  | [] => none
  | p :: rest =>
    match p corpus with
    | some (some v) => some v
    | _ => extractVersion rest corpus

/-- `'high' if matches >= 2 else 'medium'` (line 305). -/
def confidenceFor (n : Nat) : String := if 2 ≤ n then "high" else "medium"

/-- `search = html + "\n" + "\n".join(all_urls)` (line 229). -/
def corpusOf (html : String) (all_urls : List String) : String :=
  html ++ "\n" ++ String.intercalate "\n" all_urls

/-- The record built for a matched entry (lines 294-306); Python
`version or "detected"` maps both `None` and the empty string to the
sentinel. -/
def mkLibMatch (e : LibEntry) (search : String) : LibMatch :=
  { name := pyReplace e.name "\\." "."
  , icon := e.icon
  , version := match extractVersion e.patterns search with
               | some v => if v == "" then "detected" else v
               | none => "detected"
  , confidence := confidenceFor (countMatches e.patterns search) }

/-- Translation of `detect_libraries` (lines 228-308) over an abstract
catalog: the loop appends, in catalog order, a record for every entry with at
least one matching signature. -/
def detect_libraries (libs : List LibEntry) (html : String) (all_urls : List String) :
    List LibMatch :=
  libs.foldl (fun found e =>
    if 0 < countMatches e.patterns (corpusOf html all_urls) then
      found ++ [mkLibMatch e (corpusOf html all_urls)]
    else found) []

/-- The Detector exactly as spec section 4.4 words it: entries with at least
one case-insensitive signature match, in catalog declaration order;
confidence high when at least two signatures matched, else medium; version
from the first signature in declared order whose match has a capturing group,
else the sentinel "detected".  Stated separately from `detect_libraries` so
the refinement between the two can be proved. -/
def detect_spec_model (libs : List LibEntry) (html : String) (all_urls : List String) :
    List LibMatch :=
  (libs.filter (fun e => 0 < countMatches e.patterns (corpusOf html all_urls))).map
    (fun e =>
      { name := pyReplace e.name "\\." "."
      , icon := e.icon
      , version := (extractVersion e.patterns (corpusOf html all_urls)).getD "detected"
      , confidence :=
          if 2 ≤ countMatches e.patterns (corpusOf html all_urls) then "high"
          else "medium" })

/-- Rank of the two-level confidence scale, high above medium. -/
def confRank : String → Nat
  | "high" => 1
  | _ => 0

/-! Concrete sample documents and a sample joiner used by the scenario claims
and the witnesses. -/

/-- A joiner that plainly concatenates, standing in for a successful
urljoin at witness inputs. -/
def joinConcat : Joiner := fun base href => some (base ++ href)

def jsVoidDoc : List Element :=
  [⟨"link", [("rel", "stylesheet"), ("href", "javascript:void(0)")], ""⟩,
   ⟨"a", [("href", "javascript:void(0)")], ""⟩]

def jsVoidHtml : String :=
  "<link rel=\"stylesheet\" href=\"javascript:void(0)\"><a href=\"javascript:void(0)\"></a>"

def upperJsDoc : List Element :=
  [⟨"link", [("rel", "stylesheet"), ("href", "JAVASCRIPT:void(0)")], ""⟩]

def upperJsHtml : String := "<link rel=\"stylesheet\" href=\"JAVASCRIPT:void(0)\">"

def lazyImgDoc : List Element := [⟨"img", [("data-src", "photo.jpg")], ""⟩]

def lazyImgHtml : String := "<img data-src=\"photo.jpg\">"

def lazyNoDotDoc : List Element := [⟨"img", [("data-src", "x")], ""⟩]

def lazyNoDotHtml : String := "<img data-src=\"x\">"

/-! The claim theorems. -/

/-- C4: the classifier is a pure function of (URL, declared content-type)
that applies the seven rules of spec section 4.2 in order with first match
winning, the query string stripped before extension matching and all
matching case-insensitive: `get_asset_type` coincides with the classifier
transcribed from the spec text. -/
theorem get_asset_type_matches_spec (url content_type : String) :
    get_asset_type url content_type = classify_spec url content_type := by
  simp only [get_asset_type, classify_spec]
  rw [ite_merge, ite_merge]

/-- C10: when an extraction rule presents a URL already in the scan's seen
set, the add step leaves the state entirely unchanged — the earlier record
keeps its category, origin tag and attribute bag, and nothing from the later
discovery is merged in. -/
theorem add_seen_leaves_state (st : ScanState) (u type_ tag : String)
    (extra : List (String × String)) (h : u ∈ st.seen) :
    add st (some u) type_ tag extra = st := by
  simp only [add]
  rw [if_pos (Or.inr h)]

/-- Witness for C10 at a concrete state: a second discovery of an already
seen URL, with a different category, origin and attribute bag, changes
nothing. -/
theorem add_seen_leaves_state_spot :
    add ⟨[{ url := "https://x.test/a.css", type_ := "css", tag := "link[rel=stylesheet]",
            inline := false }], ["https://x.test/a.css"]⟩
        (some "https://x.test/a.css") "font" "link[font]" [("k", "v")] =
      ⟨[{ url := "https://x.test/a.css", type_ := "css", tag := "link[rel=stylesheet]",
          inline := false }], ["https://x.test/a.css"]⟩ :=
  add_seen_leaves_state _ _ _ _ _ (by decide)

/-- C3: the resolver rejects the empty reference, and rejects every
reference whose whitespace-trimmed form starts with one of the excluded
schemes data:, javascript:, a bare fragment, or mailto:; consequently a
document whose link and anchor both carry href="javascript:void(0)" scans to
no records at all. -/
theorem resolve_rejects_nonfetchable (j : Joiner) (base href : String)
    (h : href = "" ∨ startsWithStr (stripStr href) "data:" = true ∨
         startsWithStr (stripStr href) "javascript:" = true ∨
         startsWithStr (stripStr href) "#" = true ∨
         startsWithStr (stripStr href) "mailto:" = true) :
    resolve_url j (some href) base = none ∧
    parse_assets_from_html j jsVoidDoc jsVoidHtml base = [] := by
  refine ⟨?_, rfl⟩
  unfold resolve_url
  rcases h with h | h | h | h | h
  · simp [h]
  all_goals
    by_cases h0 : href = ""
  any_goals simp [h0]
  all_goals simp [h0, h]

/-- Witness for C3: a padded javascript: reference resolves to nothing and
the javascript:void(0) document scans to the empty list, under a joiner that
would otherwise succeed. -/
theorem resolve_rejects_nonfetchable_spot :
    resolve_url joinConcat (some "  javascript:void(0)") "https://x.test/" = none ∧
    parse_assets_from_html joinConcat jsVoidDoc jsVoidHtml "https://x.test/" = [] :=
  resolve_rejects_nonfetchable joinConcat "https://x.test/" "  javascript:void(0)"
    (Or.inr (Or.inr (Or.inl (by decide))))

/-- C9: the excluded-scheme test is a case-sensitive prefix check: an
uppercase JAVASCRIPT: reference is not rejected — the resolver hands it to
the join — and a stylesheet link carrying it produces an asset record with
the joined location. -/
theorem resolve_scheme_check_case_sensitive (j : Joiner) (base u : String)
    (hj : j base "JAVASCRIPT:void(0)" = some u) (hu : u ≠ "") :
    resolve_url j (some "JAVASCRIPT:void(0)") base = some u ∧
    parse_assets_from_html j upperJsDoc upperJsHtml base =
      [{ url := u, type_ := "css", tag := "link[rel=stylesheet]", inline := false }] := by
  have hres : resolve_url j (some "JAVASCRIPT:void(0)") base = j base "JAVASCRIPT:void(0)" :=
    rfl
  have hops : scanOps j upperJsDoc upperJsHtml base =
      [.addO (resolve_url j (some "JAVASCRIPT:void(0)") base) "css" "link[rel=stylesheet]" []] :=
    rfl
  refine ⟨hres.trans hj, ?_⟩
  unfold parse_assets_from_html
  rw [hops, hres, hj]
  simp [runOps, ScanOp.apply, add, hu]

/-- Witness for C9 at a concrete joiner and base. -/
theorem resolve_scheme_check_case_sensitive_spot :
    resolve_url joinConcat (some "JAVASCRIPT:void(0)") "https://x.test/" =
      some "https://x.test/JAVASCRIPT:void(0)" ∧
    parse_assets_from_html joinConcat upperJsDoc upperJsHtml "https://x.test/" =
      [{ url := "https://x.test/JAVASCRIPT:void(0)", type_ := "css",
         tag := "link[rel=stylesheet]", inline := false }] :=
  resolve_scheme_check_case_sensitive joinConcat "https://x.test/"
    "https://x.test/JAVASCRIPT:void(0)" (by decide) (by decide)

/-- C8: the scanner and detector are total functions — for every joiner,
document, raw text, base and catalog they return a list (exceptions inside
the join are caught by resolve_url and surface as none) — and an
unresolvable reference contributes no candidate: the add step on a none url
is the identity on the scan state. -/
theorem scanner_detector_total (j : Joiner) (doc : List Element) (html base : String)
    (libs : List LibEntry) (urls : List String) :
    (∃ records, parse_assets_from_html j doc html base = records) ∧
    (∃ found, detect_libraries libs html urls = found) ∧
    (∀ st type_ tag extra, ScanOp.apply st (.addO none type_ tag extra) = st) :=
  ⟨⟨_, rfl⟩, ⟨_, rfl⟩, fun _ _ _ _ => rfl⟩

/-! Machinery for the uniqueness invariant (C1). -/

/-- Locations of the non-inline records of an output list. -/
def nonInlineUrls (l : List Asset) : List String :=
  (l.filter (fun a => !a.inline)).map Asset.url

/-- The invariant the add step maintains: non-inline locations are distinct
and every non-inline location has been recorded in seen. -/
def SeenInv (st : ScanState) : Prop :=
  (nonInlineUrls st.assets).Nodup ∧
  ∀ a ∈ st.assets, a.inline = false → a.url ∈ st.seen

theorem nonInlineUrls_append (l1 l2 : List Asset) :
    nonInlineUrls (l1 ++ l2) = nonInlineUrls l1 ++ nonInlineUrls l2 := by
  simp [nonInlineUrls]

theorem apply_SeenInv (st : ScanState) (op : ScanOp) (h : SeenInv st) :
    SeenInv (ScanOp.apply st op) := by
  obtain ⟨hnd, hmem⟩ := h
  cases op with
  | inlineO u t g c n =>
    refine ⟨?_, ?_⟩
    · simpa [ScanOp.apply, nonInlineUrls_append, nonInlineUrls] using hnd
    · intro a ha hin
      simp only [ScanOp.apply, List.mem_append, List.mem_singleton] at ha
      rcases ha with ha | ha
      · exact hmem a ha hin
      · rw [ha] at hin; simp at hin
  | addO u t g ex =>
    cases u with
    | none => exact ⟨hnd, hmem⟩
    | some v =>
      show SeenInv (add st (some v) t g ex)
      simp only [add]
      split
      · exact ⟨hnd, hmem⟩
      · rename_i hc
        push_neg at hc
        obtain ⟨hv0, hvs⟩ := hc
        constructor
        · have hnotin : v ∉ nonInlineUrls st.assets := by
            intro hv
            rcases List.mem_map.mp hv with ⟨a, haf, hau⟩
            rcases List.mem_filter.mp haf with ⟨hain, hani⟩
            exact hvs (hau ▸ hmem a hain (by simpa using hani))
          rw [nonInlineUrls_append]
          refine List.Nodup.append hnd ?_ ?_
          · simp [nonInlineUrls]
          · intro x hx hx2
            have hxv : x = v := by simpa [nonInlineUrls] using hx2
            exact hnotin (hxv ▸ hx)
        · intro a ha hin
          rcases List.mem_append.mp ha with ha | ha
          · exact List.mem_append_left _ (hmem a ha hin)
          · simp only [List.mem_singleton] at ha
            subst ha
            simp

theorem runOps_SeenInv (ops : List ScanOp) : SeenInv (runOps ops) := by
  have hgen : ∀ st, SeenInv st → SeenInv (ops.foldl ScanOp.apply st) := by
    induction ops with
    | nil => intro st h; exact h
    | cons op rest ih => intro st h; exact ih _ (apply_SeenInv st op h)
  exact hgen ⟨[], []⟩ ⟨by simp [nonInlineUrls], by simp⟩

/-- C1: for every joiner, document, raw text and base, the scan output has
no two non-inline records with the same location — the first rule to
discover a URL produces the record and later rules discovering the same URL
are suppressed by the seen set. -/
theorem scan_locations_nodup (j : Joiner) (doc : List Element) (html base : String) :
    (nonInlineUrls (parse_assets_from_html j doc html base)).Nodup :=
  (runOps_SeenInv (scanOps j doc html base)).1

/-- A script body of raw length 21 whose trimmed length is 1. -/
def padBody : String := "a".pushn ' ' 20

theorem filterMap_singleton {α β : Type} (f : α → Option β) (a : α) :
    List.filterMap f [a] = (f a).toList := by
  rcases h : f a with _ | b <;> simp [h]

/-- Characterization of the scan of a document holding one `<script>`
element without src: an inline record appears exactly when the body is not
whitespace-only and its raw length exceeds 20. -/
theorem scan_single_script (j : Joiner) (base body : String) :
    parse_assets_from_html j [⟨"script", [], body⟩] "" base =
      (if stripStr body ≠ "" ∧ 20 < body.length then
        [{ url := "inline-script-1", type_ := "js", tag := "<script> inline",
           inline := true, content := some (pySlice 10000 body),
           size := some body.length }]
      else []) := by
  have hA : stylesheetOps j [⟨"script", [], body⟩] base = [] := rfl
  have hB : cssHrefOps j [⟨"script", [], body⟩] base = [] := rfl
  have hC : styleBlockOps j [⟨"script", [], body⟩] base = [] := rfl
  have hD : scriptSrcOps j [⟨"script", [], body⟩] base = [] := rfl
  have hF : imgOps j [⟨"script", [], body⟩] base = [] := rfl
  have hG : lazyOps j [⟨"script", [], body⟩] base = [] := rfl
  have hH : styleAttrOps j [⟨"script", [], body⟩] base = [] := rfl
  have hI : htmlSweepOps j "" base = [] := rfl
  have hJ : fontLinkOps j [⟨"script", [], body⟩] base = [] := rfl
  have hK : googleFontsOps j [⟨"script", [], body⟩] base = [] := rfl
  have hL : faviconOps j [⟨"script", [], body⟩] base = [] := rfl
  have hM : ogImageOps j [⟨"script", [], body⟩] base = [] := rfl
  have hN : preloadOps j [⟨"script", [], body⟩] base = [] := rfl
  have hops : scanOps j [⟨"script", [], body⟩] "" base =
      inlineScriptOps [⟨"script", [], body⟩] := by
    unfold scanOps
    rw [hA, hB, hC, hD, hF, hG, hH, hI, hJ, hK, hL, hM, hN]
    simp
  have hstep : inlineScriptOps [⟨"script", [], body⟩] =
      Option.toList (if stripStr body ≠ "" ∧ 20 < body.length then
        some (ScanOp.inlineO "inline-script-1" "js" "<script> inline"
          (pySlice 10000 body) body.length) else none) := by
    have hfil : (List.filter (fun el => el.name == "script" && !el.hasAttr "src")
        [(⟨"script", [], body⟩ : Element)]).enum = [(0, ⟨"script", [], body⟩)] := rfl
    unfold inlineScriptOps
    rw [hfil, filterMap_singleton]
    norm_num
    rw [show ("inline-script-" ++ toString 1 : String) = "inline-script-1" from by decide]
  unfold parse_assets_from_html
  rw [hops, hstep]
  by_cases h : stripStr body ≠ "" ∧ 20 < body.length
  · rw [if_pos h, if_pos h]; rfl
  · rw [if_neg h, if_neg h]; rfl

/-- C2 counterexample: the claim says a script body of trimmed length at
most 20 never produces a record, but the code tests the untrimmed length —
this whitespace-padded body has trimmed length 1 yet produces an
inline-script record. -/
theorem inline_script_trim_counterexample :
    (stripStr padBody).length ≤ 20 ∧
    parse_assets_from_html joinConcat [⟨"script", [], padBody⟩] "" "https://x.test/" =
      [{ url := "inline-script-1", type_ := "js", tag := "<script> inline",
         inline := true, content := some padBody, size := some 21 }] := by
  refine ⟨by decide, ?_⟩
  rw [scan_single_script joinConcat "https://x.test/" padBody, if_pos (by decide)]
  decide

/-- C2 amended: a `<script>` element without src produces an inline-script
record exactly when its text is not whitespace-only and its raw, untrimmed
length exceeds 20 characters (so a trimmed body of length 21 still always
produces a record, but a trimmed body of length at most 20 padded with
whitespace past 20 raw characters also does). -/
theorem inline_script_filter_raw_length (j : Joiner) (base body : String) :
    parse_assets_from_html j [⟨"script", [], body⟩] "" base =
      (if stripStr body ≠ "" ∧ 20 < body.length then
        [{ url := "inline-script-1", type_ := "js", tag := "<script> inline",
           inline := true, content := some (pySlice 10000 body),
           size := some body.length }]
      else []) :=
  scan_single_script j base body

/-- C7: an `<img>` with no src but data-src="photo.jpg" scans to exactly one
record — category img, produced by the data-src lazy rule, located at the
join of the base and the reference — while data-src="x", containing no dot,
scans to nothing at all. -/
theorem lazy_data_src_scan (j : Joiner) (base u : String)
    (hj : j base "photo.jpg" = some u) (hu : u ≠ "") :
    parse_assets_from_html j lazyImgDoc lazyImgHtml base =
      [{ url := u, type_ := "img", tag := "data-src (lazy)", inline := false }] ∧
    parse_assets_from_html j lazyNoDotDoc lazyNoDotHtml base = [] := by
  have hres : resolve_url j (some "photo.jpg") base = j base "photo.jpg" := rfl
  have hops : scanOps j lazyImgDoc lazyImgHtml base =
      [.addO none "img" "img[src]" [("alt", "")],
       .addO none "img" "img[srcset]" [],
       .addO (resolve_url j (some "photo.jpg") base) "img" "data-src (lazy)" []] := rfl
  refine ⟨?_, rfl⟩
  unfold parse_assets_from_html
  rw [hops, hres, hj]
  simp [runOps, ScanOp.apply, add, hu]

/-- Witness for C7 at a concrete joiner and base. -/
theorem lazy_data_src_scan_spot :
    parse_assets_from_html joinConcat lazyImgDoc lazyImgHtml "https://x.test/" =
      [{ url := "https://x.test/photo.jpg", type_ := "img", tag := "data-src (lazy)",
         inline := false }] ∧
    parse_assets_from_html joinConcat lazyNoDotDoc lazyNoDotHtml "https://x.test/" = [] :=
  lazy_data_src_scan joinConcat "https://x.test/" "https://x.test/photo.jpg"
    (by decide) (by decide)

/-- Every version string the extraction loop can return comes from some
pattern of the list whose match carries a capturing group. -/
theorem extractVersion_mem {ps : List SigRun} {corpus : String} {v : String}
    (h : extractVersion ps corpus = some v) :
    ∃ p ∈ ps, p corpus = some (some v) := by
  induction ps with
  | nil => simp [extractVersion] at h
  | cons p rest ih =>
    rw [extractVersion] at h
    rcases hp : p corpus with _ | ov
    · rw [hp] at h
      rcases ih h with ⟨q, hq, hqv⟩
      exact ⟨q, List.mem_cons_of_mem _ hq, hqv⟩
    · rcases ov with _ | v0
      · rw [hp] at h
        rcases ih h with ⟨q, hq, hqv⟩
        exact ⟨q, List.mem_cons_of_mem _ hq, hqv⟩
      · rw [hp] at h
        injection h with hv
        exact ⟨p, List.mem_cons_self _ _, by rw [hp, hv]⟩

/-- The detector loop, started from any accumulator, appends exactly the
matched entries in catalog order. -/
theorem detect_foldl_eq (search : String) (libs : List LibEntry)
    (acc : List LibMatch) :
    libs.foldl (fun found e =>
        if 0 < countMatches e.patterns search then found ++ [mkLibMatch e search]
        else found) acc =
      acc ++ (libs.filter (fun e => 0 < countMatches e.patterns search)).map
        (fun e => mkLibMatch e search) := by
  induction libs generalizing acc with
  | nil => simp
  | cons e rest ih =>
    rw [List.foldl_cons]
    by_cases he : 0 < countMatches e.patterns search
    · rw [if_pos he, ih]
      simp [List.filter_cons, he]
    · rw [if_neg he, ih]
      simp [List.filter_cons, he]

/-- C5: the detector includes a catalog entry exactly when at least one of
its signatures matches the corpus, in catalog declaration order, with
confidence high exactly on two or more signature matches and the version
taken from the first signature in declared order whose match has a capturing
group, else the sentinel — that is, it coincides with the detector
transcribed from the spec text.  The hypothesis states that a participating
capturing group never captures the empty string, which holds of every
capturing group in the LIBS table (each requires at least one character). -/
theorem detect_matches_spec (libs : List LibEntry) (html : String)
    (all_urls : List String)
    (hv : ∀ e ∈ libs, ∀ p ∈ e.patterns, ∀ v,
      p (corpusOf html all_urls) = some (some v) → v ≠ "") :
    detect_libraries libs html all_urls = detect_spec_model libs html all_urls := by
  unfold detect_libraries detect_spec_model
  rw [detect_foldl_eq]
  rw [List.nil_append]
  apply List.map_congr_left
  intro e he
  rcases List.mem_filter.mp he with ⟨hein, _⟩
  unfold mkLibMatch confidenceFor
  rcases hx : extractVersion e.patterns (corpusOf html all_urls) with _ | v
  · rfl
  · rcases extractVersion_mem hx with ⟨p, hp, hpv⟩
    have hne : v ≠ "" := hv e hein p hp v hpv
    simp [hne]

/-- Witness for C5 on a one-entry catalog whose single signature matches
with no capturing group. -/
theorem detect_matches_spec_spot :
    detect_libraries [⟨"Demo", "i", [fun _ => some none]⟩] "page" [] =
      detect_spec_model [⟨"Demo", "i", [fun _ => some none]⟩] "page" [] :=
  detect_matches_spec [⟨"Demo", "i", [fun _ => some none]⟩] "page" [] (by
    intro e he p hp v hpv
    simp only [List.mem_singleton] at he
    subst he
    simp only [List.mem_singleton] at hp
    subst hp
    simp at hpv)

/-- C6: detector confidence is monotone in the signature set — for
duplicate-free S1 contained in S2, against the same corpus, when both sets
yield a match the confidence computed for S2 ranks at least that of S1
(high above medium). -/
theorem detect_confidence_monotone (corpus : String) (S1 S2 : List SigRun)
    (hnd : S1.Nodup) (hsub : S1 ⊆ S2)
    (h1 : 0 < countMatches S1 corpus) (h2 : 0 < countMatches S2 corpus) :
    confRank (confidenceFor (countMatches S1 corpus)) ≤
      confRank (confidenceFor (countMatches S2 corpus)) := by
  have hf : countMatches S1 corpus ≤ countMatches S2 corpus := by
    have hnd' : (S1.filter (fun p => (p corpus).isSome)).Nodup := hnd.filter _
    have hsub' : (S1.filter (fun p => (p corpus).isSome)) ⊆
        (S2.filter (fun p => (p corpus).isSome)) := by
      intro x hx
      rw [List.mem_filter] at hx ⊢
      exact ⟨hsub hx.1, hx.2⟩
    exact (hnd'.subperm hsub').length_le
  unfold confidenceFor
  by_cases ha : 2 ≤ countMatches S1 corpus
  · rw [if_pos ha, if_pos (le_trans ha hf)]
  · rw [if_neg ha]
    split <;> simp [confRank]

/-- Witness for C6: a single always-matching signature against the same
signature listed twice. -/
theorem detect_confidence_monotone_spot :
    confRank (confidenceFor (countMatches [fun _ => some none] "c")) ≤
      confRank (confidenceFor
        (countMatches [fun _ => some none, fun _ => some none] "c")) :=
  detect_confidence_monotone "c" [fun _ => some none]
    [fun _ => some none, fun _ => some none]
    (List.nodup_singleton _)
    (by intro x hx; simp only [List.mem_singleton] at hx; simp [hx])
    (by decide) (by decide)

end AssetRipper
